import Mathlib

/-!
Verification of the incremental ingestion / vector-index synchronization
pipeline of app/services/rag_service.py (class RAGService), against its
natural-language specification.

Shallow embedding conventions:
- Paths are absolute, OS-normalized strings (os.path.normpath of an absolute
  path; the configured root directories in config.py are absolute, so every
  path handled by the service is absolute and normalization is idempotent).
- The MD5 digest produced by RAGService._calculate_file_hash via the external
  hashlib library is modeled as the value of a Hash field attached to each
  on-disk file; the pipeline only ever compares digests for equality.
- datetime.now() is modeled as a Nat supplied by the environment (Env.now).
- The external RecursiveCharacterTextSplitter of langchain is modeled as a
  function parameter Env.split; the table branch of the kb chunking never
  invokes it.
- The SQLAlchemy session is modeled functionally: _process_documents threads
  the ledger row list; update_vector_store commits it on success and discards
  it (rollback) when a stage raises, exactly mirroring the try/commit/except/
  rollback of RAGService.update_vector_store.
- A per-file exception raised while processing is modeled by the LoadOutcome
  attached to the file: ok (the loaded units for kb, the produced code chunks
  for code), loaderError (an exception raised inside _load_document, which
  that method catches itself and turns into an empty list), decodeExn (an
  exception whose message matches the substring tests of the handler at
  rag_service.py lines 341-342, classified skipped), otherExn (any other
  exception, classified error).
-/

namespace RagAMuffin

/-- Absolute, OS-normalized file path. -/
abbrev Path := String

/-- MD5 content digest as computed by RAGService._calculate_file_hash
(hashlib is an external library; only digest equality is ever used). -/
abbrev Hash := Nat

/-- A langchain Document (a chunk): text plus the metadata keys that
rag_service.py reads or writes.  Keys absent from a Python metadata dict are
modeled as none or as the default value. -/
structure Doc where
  content : String
  source : Path := ""
  file_type : String := ""
  is_table_chunk : Bool := false
  sheet_name : Option String := none
  document_path_relative : Option String := none
  folder_level_1 : Option String := none
  folder_level_2 : Option String := none
  folder_level_3 : Option String := none
  last_folder_name : Option String := none
  file_name : String := ""
  project_name : Option String := none
  title : Option String := none
  document_title : String := ""
  deriving Repr, DecidableEq

/-- A ledger row: the DocumentStatus model of app/models.py (the id column is
irrelevant to the pipeline and omitted). -/
structure DocumentStatus where
  file_path : Path
  file_type : String
  last_modified : Nat
  indexed_at : Nat
  status : String
  error_message : Option String := none
  file_hash : Hash
  deriving Repr, DecidableEq

/-- Outcome of loading and chunking one file, supplied by the environment:
ok docs is a successful load (for kb files, the raw units returned by
_load_document; for code files, the chunks produced by
_split_code_into_chunks before hierarchical metadata is attached);
loaderError is an exception raised inside _load_document (rag_service.py
line 206 catches it and returns an empty list); decodeExn is an exception
whose message matches one of the three substring tests at lines 341-342
(binary or undecodable content); otherExn is any other exception raised in
the per-file try block of phase 3. -/
inductive LoadOutcome where
  | ok (docs : List Doc)
  | loaderError
  | decodeExn
  | otherExn (msg : String)
  deriving Repr, DecidableEq

/-- One file found on disk by _get_current_files: its normalized absolute
path, the components of its path relative to the category root directory
(normpath(relpath(path, base)).split(os.sep)), the MD5 digest of its current
bytes, its mtime, and the outcome of loading it in this run. -/
structure DiskFile where
  path : Path
  components : List String
  hash : Hash
  mtime : Nat
  outcome : LoadOutcome
  deriving Repr, DecidableEq

/-- Environment of one _process_documents call: the scanned disk state for
the category (exclusion rules already applied by _get_current_files), the
_any_db_reset flag set in __init__, the current time, whether the bulk
add_documents call raises (embedding backend unavailable), and the external
recursive text splitter. -/
structure Env where
  disk : List DiskFile
  anyDbReset : Bool
  now : Nat
  embedFails : Bool
  split : Doc → List Doc

/-- The vector store (a ChromaDB collection): the multiset of chunks it
holds, as a list. -/
structure Chroma where
  chunks : List Doc
  deriving Repr, DecidableEq

/-- ChromaDB delete with a metadata filter on exact source match:
db_instance.delete with a where clause keyed by source. -/
def Chroma.deleteWhereSource (c : Chroma) (p : Path) : Chroma :=
  ⟨c.chunks.filter (fun ch => ch.source != p)⟩

/-- ChromaDB bulk upsert: db_instance.add_documents. -/
def Chroma.addDocuments (c : Chroma) (ds : List Doc) : Chroma :=
  ⟨c.chunks ++ ds⟩

/-- The on-disk processing cache (PROCESSING_CACHE_PATH): one entry per file
path holding the last saved hash.  The cache file name is an MD5 digest of
the path, an injective keying, so the cache is modeled as keyed by the path
itself. -/
abbrev Cache := List (Path × Hash)

/-- RAGService._save_cached_hash: overwrite the cache entry for a path. -/
def saveCachedHash (c : Cache) (p : Path) (h : Hash) : Cache :=
  c.filter (fun e => e.1 != p) ++ [(p, h)]

/-- Removal of the cache file for a deleted path (phase 2,
rag_service.py lines 274-277). -/
def removeCachedHash (c : Cache) (p : Path) : Cache :=
  c.filter (fun e => e.1 != p)

/-- The stored_db_status dict of _process_documents: the ledger rows of one
file_type keyed by normalized path; a Python dict comprehension lets the
last row win on a duplicate key, hence the reversed find. -/
def lookupRow (rows : List DocumentStatus) (ft : String) (p : Path) :
    Option DocumentStatus :=
  (rows.filter (fun r => r.file_type == ft)).reverse.find?
    (fun r => r.file_path == p)

/-- Phase 1 decision of _process_documents (rag_service.py lines 241-257):
a file needs processing when the reset flag is set, when its current hash
differs from the stored hash, when its stored status is not indexed, or when
it has no ledger row at all.  The file mtime is never consulted. -/
def needsProcessing (anyDbReset : Bool) (currentHash : Hash)
    (entry : Option DocumentStatus) : Bool :=
  if anyDbReset then true
  else
    match entry with
    | some ds =>
        if currentHash != ds.file_hash then true
        else if ds.status != "indexed" then true
        else false
    | none => true

/-- Whether one disk file is selected for (re-)indexing in this run. -/
def selected (env : Env) (ft : String) (rows : List DocumentStatus)
    (f : DiskFile) : Bool :=
  needsProcessing env.anyDbReset f.hash (lookupRow rows ft f.path)

/-- The files_to_add_or_update set of phase 1, in disk-scan order. -/
def toIndexFiles (env : Env) (ft : String) (rows : List DocumentStatus) :
    List DiskFile :=
  env.disk.filter (selected env ft rows)

/-- Whether a path is present in the scanned disk state. -/
def onDisk (env : Env) (p : Path) : Bool :=
  env.disk.any (fun f => f.path == p)

/-- The files_to_delete_from_db set of _process_documents: ledger paths of
this file_type that are absent from the scanned disk state. -/
def toDeletePaths (env : Env) (ft : String) (rows : List DocumentStatus) :
    List Path :=
  ((rows.filter (fun r => r.file_type == ft)).map (fun r => r.file_path)).filter
    (fun p => !onDisk env p)

/-- Embedding of the startswith test on a one-dot prefix, as used at
rag_service.py lines 449 and 902: whether the first character is a dot. -/
def startsWithDot (s : String) : Bool :=
  match s.toList with
  | [] => false
  | c :: _ => c == '.'

/-- Stem of a file name in the sense of os.path.splitext: the name without
its final extension, where leading dots never start an extension. -/
def splitextStem (name : String) : String :=
  let cs := name.toList
  match cs.reverse.findIdx? (fun c => c == '.') with
  | none => name
  | some rIdx =>
      let dotIdx := cs.length - 1 - rIdx
      if (cs.take dotIdx).all (fun c => c == '.') then name
      else String.mk (cs.take dotIdx)

/-- Embedding of RAGService._add_hierarchical_metadata (lines 880-911).
absPath is the normalized absolute file path; components is
normpath(relpath(absPath, base)).split(os.sep), whose last element is the
base name of the file.  Folder levels beyond the available folders, and the
last folder name of a file with no folder, are left at their incoming
values, mirroring metadata keys that the Python loop never assigns. -/
def addHierarchicalMetadata (doc : Doc) (absPath : Path)
    (components : List String) (ft : String) : Doc :=
  let folders := components.dropLast
  let baseName := (components.getLast?).getD ""
  let projName : Option String :=
    if ft == "code" then
      match components.head? with
      | some c => if c != "" && !(startsWithDot c) then some c else none
      | none => none
    else none
  let docTitle : String :=
    match doc.title with
    | some t => if t != "" then t else splitextStem baseName
    | none => splitextStem baseName
  { doc with
    source := absPath
    document_path_relative := some (String.intercalate "/" components)
    folder_level_1 := ((folders.get? 0).map some).getD doc.folder_level_1
    folder_level_2 := ((folders.get? 1).map some).getD doc.folder_level_2
    folder_level_3 := ((folders.get? 2).map some).getD doc.folder_level_3
    last_folder_name := ((folders.getLast?).map some).getD doc.last_folder_name
    file_name := baseName
    file_type := ft
    project_name := projName
    document_title := docTitle }

/-- The kb chunking dispatch of phase 3 (rag_service.py lines 291-298): a
unit flagged is_table_chunk is appended unchanged; any other unit is handed
to the recursive text splitter. -/
def chunkKbDocs (split : Doc → List Doc) (docs : List Doc) : List Doc :=
  (docs.map (fun d => if d.is_table_chunk then [d] else split d)).flatten

/-- The chunks one selected file contributes to all_chunks_to_add_in_this_run.
For kb files the loaded units are chunked and then enriched (lines 289-302);
for code files _split_code_into_chunks already enriches every chunk it emits
(lines 500, 535, 583, 609, 651, 673, 710, 732, 760, 782, 811, 833, 858), so
the environment-provided chunks are enriched here the same way.  A file whose
processing raised contributes nothing (loaderError yields an empty load for
kb; decodeExn and otherExn jump to the handler before any chunk is kept). -/
def fileChunks (env : Env) (ft : String) (f : DiskFile) : List Doc :=
  if ft == "kb" then
    match f.outcome with
    | .ok docs =>
        (chunkKbDocs env.split docs).map
          (fun d => addHierarchicalMetadata d f.path f.components "kb")
    | _ => []
  else if ft == "code" then
    match f.outcome with
    | .ok docs =>
        docs.map (fun d => addHierarchicalMetadata d f.path f.components "code")
    | _ => []
  else []

/-- The all_chunks_to_add_in_this_run list of one _process_documents call. -/
def newChunks (env : Env) (ft : String) (rows : List DocumentStatus) :
    List Doc :=
  ((toIndexFiles env ft rows).map (fileChunks env ft)).flatten

/-- Status and error message written to the ledger row of one processed file
(phase 3, lines 316-367).  A kb loaderError is caught inside _load_document,
which returns an empty list, so the success branch runs and writes indexed;
for a code file every exception reaches the handler at line 335, which
classifies it by the message substrings of lines 341-342. -/
def outcomeStatus (ft : String) (o : LoadOutcome) : String × Option String :=
  match o with
  | .ok _ => ("indexed", none)
  | .loaderError =>
      if ft == "kb" then ("indexed", none)
      else ("error", some "exception while reading file")
  | .decodeExn =>
      ("skipped", some "File is binary or malformed, skipped for text processing.")
  | .otherExn m => ("error", some m)

/-- The ledger row written for one processed file: the new hash, the current
mtime, the current time, and the outcome status (lines 316-333 and 349-367;
the hash recomputed on the error path at line 349 equals the phase 1 hash,
the file being unchanged within the run). -/
def mkRow (env : Env) (ft : String) (f : DiskFile) : DocumentStatus :=
  { file_path := f.path
    file_type := ft
    last_modified := f.mtime
    indexed_at := env.now
    status := (outcomeStatus ft f.outcome).1
    error_message := (outcomeStatus ft f.outcome).2
    file_hash := f.hash }

/-- Net effect on the ledger of writing the row for one processed file: the
session either updates the existing row object for that path and type or
adds a new one; on the unique-keyed table this replaces the row. -/
def upsertRow (env : Env) (ft : String) (rows : List DocumentStatus)
    (f : DiskFile) : List DocumentStatus :=
  rows.filter (fun r => !(r.file_type == ft && r.file_path == f.path))
    ++ [mkRow env ft f]

/-- The ledger rows surviving phase 2 (lines 264-277): rows of this
file_type whose path left the disk are deleted from the session. -/
def phase2Rows (env : Env) (ft : String) (rows : List DocumentStatus) :
    List DocumentStatus :=
  rows.filter
    (fun r => !(r.file_type == ft && (toDeletePaths env ft rows).contains r.file_path))

/-- Result of one _process_documents call that did not raise. -/
structure StageResult where
  rows : List DocumentStatus
  chroma : Chroma
  cache : Cache
  deriving Repr, DecidableEq

/-- Embedding of RAGService._process_documents for one category.  Phase 1
selects files by hash and saves their cache entries; phase 2 deletes vanished
paths from the vector store, the session and the cache; phase 3 accumulates
the chunks of the selected files and writes their ledger rows, then clears
every source occurring among the new chunks from the vector store and bulk
adds the new chunks (lines 369-374).  When the bulk add raises (embedding
backend down), the exception propagates with the vector-store and cache
mutations already applied, while the session rows are pending only; phase 3
is skipped entirely when no file was selected (line 281) and the add is
skipped when no chunk was produced (line 369). -/
def processDocuments (env : Env) (ft : String) (rows : List DocumentStatus)
    (chroma : Chroma) (cache : Cache) :
    Except (Chroma × Cache) StageResult :=
  let toIdx := toIndexFiles env ft rows
  let toDel := toDeletePaths env ft rows
  let cache1 := toIdx.foldl (fun c f => saveCachedHash c f.path f.hash) cache
  let chroma1 := toDel.foldl (fun c p => c.deleteWhereSource p) chroma
  let rows1 := phase2Rows env ft rows
  let cache2 := toDel.foldl (fun c p => removeCachedHash c p) cache1
  let allChunks := newChunks env ft rows
  let rows2 := toIdx.foldl (upsertRow env ft) rows1
  if allChunks.isEmpty then .ok ⟨rows2, chroma1, cache2⟩
  else
    let sources := (allChunks.map (fun c => c.source)).dedup
    let chroma2 := sources.foldl (fun c p => c.deleteWhereSource p) chroma1
    if env.embedFails then .error (chroma2, cache2)
    else .ok ⟨rows2, chroma2.addDocuments allChunks, cache2⟩

/-- The whole mutable state one run touches: the committed ledger, the two
vector stores, and the processing cache. -/
structure SysState where
  rows : List DocumentStatus
  chromaKb : Chroma
  chromaCode : Chroma
  cache : Cache
  deriving Repr, DecidableEq

/-- Embedding of RAGService.update_vector_store (lines 863-878): process the
kb tree, then the code tree, then commit the session; if either stage raises,
the session is rolled back, which restores the pre-run ledger, while the
vector-store and cache mutations already issued stay. -/
def updateVectorStore (envKb envCode : Env) (s : SysState) : SysState :=
  match processDocuments envKb "kb" s.rows s.chromaKb s.cache with
  | .error (ck, c1) => { s with chromaKb := ck, cache := c1 }
  | .ok r1 =>
      match processDocuments envCode "code" r1.rows s.chromaCode r1.cache with
      | .error (cc, c2) =>
          { s with chromaKb := r1.chroma, chromaCode := cc, cache := c2 }
      | .ok r2 =>
          { rows := r2.rows, chromaKb := r1.chroma,
            chromaCode := r2.chroma, cache := r2.cache }

/-- Whether a stage returned normally. -/
def stageOk (r : Except (Chroma × Cache) StageResult) : Bool :=
  match r with
  | .error _ => false
  | .ok _ => true

/-- Ledger rows of a stage result, with a fallback for the raising case. -/
def stageRows (r : Except (Chroma × Cache) StageResult)
    (fallback : List DocumentStatus) : List DocumentStatus :=
  match r with
  | .error _ => fallback
  | .ok R => R.rows

/-- Ledger rows of a stage result, empty when the stage raised. -/
def stageRowsD (r : Except (Chroma × Cache) StageResult) :
    List DocumentStatus :=
  stageRows r []

/-- Vector-store state after a stage, raised or not: the store mutations of a
raising stage are not rolled back. -/
def stageChromaD (r : Except (Chroma × Cache) StageResult) : Chroma :=
  match r with
  | .error e => e.1
  | .ok R => R.chroma

/-- Cache state after a stage, raised or not. -/
def stageCacheD (r : Except (Chroma × Cache) StageResult) : Cache :=
  match r with
  | .error e => e.2
  | .ok R => R.cache

/-- The kb stage of one run. -/
def kbStep (envKb : Env) (s : SysState) : Except (Chroma × Cache) StageResult :=
  processDocuments envKb "kb" s.rows s.chromaKb s.cache

/-- The code stage of one run, fed the kb-stage session rows and cache. -/
def codeStep (envKb envCode : Env) (s : SysState) :
    Except (Chroma × Cache) StageResult :=
  processDocuments envCode "code" (stageRows (kbStep envKb s) s.rows)
    s.chromaCode (stageCacheD (kbStep envKb s))

/-- The _any_db_reset flag of RAGService.__init__ (lines 58-64): set when
either vector store was freshly created or found empty. -/
def ragInitAnyDbReset (kbWasResetOrEmpty codebaseWasResetOrEmpty : Bool) : Bool :=
  kbWasResetOrEmpty || codebaseWasResetOrEmpty

/-- The processing-cache state after RAGService.__init__ (lines 63-68): the
cache directory is removed and recreated empty when either store was freshly
created or found empty. -/
def ragInitCache (kbWasResetOrEmpty codebaseWasResetOrEmpty : Bool)
    (cache : Cache) : Cache :=
  if kbWasResetOrEmpty || codebaseWasResetOrEmpty then [] else cache

/-- Identity splitter, standing in for a concrete external text splitter in
concrete evaluations. -/
def idSplit : Doc → List Doc := fun d => [d]

/-- A chunk survives a fold of source-keyed deletes exactly when it was
present before and its source matches none of the deleted keys. -/
theorem mem_foldl_deleteWhereSource (ps : List Path) (c : Chroma) (ch : Doc) :
    ch ∈ (ps.foldl (fun a p => a.deleteWhereSource p) c).chunks ↔
      ch ∈ c.chunks ∧ ∀ p ∈ ps, ch.source ≠ p := by
  induction ps generalizing c with
  | nil => simp
  | cons q qs ih =>
      rw [List.foldl_cons, ih]
      simp only [Chroma.deleteWhereSource, List.mem_filter, bne_iff_ne, ne_eq,
        List.mem_cons]
      constructor
      · rintro ⟨⟨h1, h2⟩, h3⟩
        refine ⟨h1, ?_⟩
        rintro p (rfl | hp)
        · exact h2
        · exact h3 p hp
      · rintro ⟨h1, h2⟩
        exact ⟨⟨h1, h2 q (Or.inl rfl)⟩, fun p hp => h2 p (Or.inr hp)⟩

/-- The hierarchical-metadata pass stamps the file path as the chunk source. -/
theorem addHierarchicalMetadata_source (d : Doc) (p : Path) (cs : List String)
    (ft : String) : (addHierarchicalMetadata d p cs ft).source = p := rfl

/-- Every chunk a file contributes carries that file path as its source. -/
theorem fileChunks_source (env : Env) (ft : String) (f : DiskFile) (ch : Doc)
    (h : ch ∈ fileChunks env ft f) : ch.source = f.path := by
  unfold fileChunks at h
  split at h
  · cases hout : f.outcome with
    | ok docs =>
        rw [hout] at h
        obtain ⟨d, -, rfl⟩ := List.mem_map.mp h
        rfl
    | loaderError => rw [hout] at h; cases h
    | decodeExn => rw [hout] at h; cases h
    | otherExn m => rw [hout] at h; cases h
  · split at h
    · cases hout : f.outcome with
      | ok docs =>
          rw [hout] at h
          obtain ⟨d, -, rfl⟩ := List.mem_map.mp h
          rfl
      | loaderError => rw [hout] at h; cases h
      | decodeExn => rw [hout] at h; cases h
      | otherExn m => rw [hout] at h; cases h
    · cases h

/-- Every chunk of a run originates from a selected disk file. -/
theorem newChunks_source (env : Env) (ft : String) (rows : List DocumentStatus)
    (ch : Doc) (h : ch ∈ newChunks env ft rows) :
    ∃ f, f ∈ toIndexFiles env ft rows ∧ ch.source = f.path := by
  unfold newChunks at h
  rw [List.mem_flatten] at h
  obtain ⟨l, hl, hch⟩ := h
  obtain ⟨f, hf, rfl⟩ := List.mem_map.mp hl
  exact ⟨f, hf, fileChunks_source env ft f ch hch⟩

/-- Characterization of a returning _process_documents call: the session
rows are the phase 2 survivors with the phase 3 row of every selected file
written over them, and every chunk of the final vector store is either one
of the chunks produced this run, or a pre-run chunk whose source matches
neither a deleted path nor any source occurring among the new chunks. -/
theorem processDocuments_ok_spec (env : Env) (ft : String)
    (rows : List DocumentStatus) (chroma : Chroma) (cache : Cache)
    (R : StageResult)
    (hR : processDocuments env ft rows chroma cache = .ok R) :
    R.rows = (toIndexFiles env ft rows).foldl (upsertRow env ft)
        (phase2Rows env ft rows)
    ∧ ∀ ch ∈ R.chroma.chunks,
        ch ∈ newChunks env ft rows ∨
          (ch ∈ chroma.chunks
            ∧ (∀ p ∈ toDeletePaths env ft rows, ch.source ≠ p)
            ∧ (∀ p ∈ (newChunks env ft rows).map (fun c => c.source),
                ch.source ≠ p)) := by
  simp only [processDocuments] at hR
  by_cases hemp : (newChunks env ft rows).isEmpty = true
  · rw [if_pos hemp] at hR
    obtain rfl := Except.ok.inj hR
    rw [List.isEmpty_iff] at hemp
    refine ⟨rfl, fun ch hch => Or.inr ?_⟩
    rw [mem_foldl_deleteWhereSource] at hch
    exact ⟨hch.1, hch.2, by simp [hemp]⟩
  · rw [if_neg hemp] at hR
    by_cases hfail : env.embedFails = true
    · rw [if_pos hfail] at hR
      cases hR
    · rw [if_neg hfail] at hR
      obtain rfl := Except.ok.inj hR
      refine ⟨rfl, fun ch hch => ?_⟩
      simp only [Chroma.addDocuments] at hch
      rcases List.mem_append.mp hch with hold | hnew
      · rw [mem_foldl_deleteWhereSource, mem_foldl_deleteWhereSource] at hold
        refine Or.inr ⟨hold.1.1, hold.1.2, fun p hp => hold.2 p ?_⟩
        rw [List.mem_dedup]
        exact hp
      · exact Or.inl hnew

/-- Files present on disk are reported present. -/
theorem onDisk_of_mem (env : Env) (f : DiskFile) (h : f ∈ env.disk) :
    onDisk env f.path = true := by
  unfold onDisk
  rw [List.any_eq_true]
  exact ⟨f, h, by simp⟩

/-- Paths slated for deletion are absent from the disk scan. -/
theorem not_onDisk_of_toDelete (env : Env) (ft : String)
    (rows : List DocumentStatus) (p : Path)
    (hp : p ∈ toDeletePaths env ft rows) : onDisk env p = false := by
  unfold toDeletePaths at hp
  rw [List.mem_filter] at hp
  simpa using hp.2

/-- Folding the phase 3 row writes over a row set that holds no row of a
given type and path, for files none of which has that path, yields a row set
that still holds no such row. -/
theorem foldl_upsert_no_row (env : Env) (ft : String) (l : List DiskFile)
    (rs : List DocumentStatus) (p : Path)
    (hl : ∀ f ∈ l, f.path ≠ p)
    (hrs : ∀ r ∈ rs, ¬(r.file_type = ft ∧ r.file_path = p)) :
    ∀ r ∈ l.foldl (upsertRow env ft) rs, ¬(r.file_type = ft ∧ r.file_path = p) := by
  induction l generalizing rs with
  | nil => exact hrs
  | cons g t ih =>
      rw [List.foldl_cons]
      refine ih (upsertRow env ft rs g) (fun f hf => hl f (List.mem_cons_of_mem g hf)) ?_
      intro r hr
      unfold upsertRow at hr
      rcases List.mem_append.mp hr with hr | hr
      · exact hrs r (List.mem_filter.mp hr).1
      · rw [List.mem_singleton] at hr
        subst hr
        rintro ⟨-, hpath⟩
        exact hl g (List.mem_cons_self g t) hpath

/-- C6: for every ledger path of the processed category that is no longer
present on disk, a completed _process_documents call leaves zero chunks with
that source in the vector store and zero ledger rows of that category for
that path. -/
theorem C6_deletion_completeness (env : Env) (ft : String)
    (rows : List DocumentStatus) (chroma : Chroma) (cache : Cache)
    (R : StageResult) (p : Path)
    (hR : processDocuments env ft rows chroma cache = .ok R)
    (hp : p ∈ toDeletePaths env ft rows) :
    R.chroma.chunks.all (fun ch => ch.source != p) = true
    ∧ R.rows.all (fun r => !(r.file_type == ft && r.file_path == p)) = true := by
  obtain ⟨hrows, hspec⟩ := processDocuments_ok_spec env ft rows chroma cache R hR
  have hdisk : onDisk env p = false := not_onDisk_of_toDelete env ft rows p hp
  constructor
  · rw [List.all_eq_true]
    intro ch hch
    rw [bne_iff_ne, ne_eq]
    rcases hspec ch hch with hnew | ⟨-, hdel, -⟩
    · obtain ⟨f, hf, hsrc⟩ := newChunks_source env ft rows ch hnew
      have hfd : f ∈ env.disk := List.mem_of_mem_filter hf
      intro hcontra
      rw [hsrc] at hcontra
      have htrue := onDisk_of_mem env f hfd
      rw [hcontra] at htrue
      rw [htrue] at hdisk
      cases hdisk
    · exact hdel p hp
  · rw [List.all_eq_true]
    intro r hr
    rw [hrows] at hr
    have hnone : ¬(r.file_type = ft ∧ r.file_path = p) := by
      refine foldl_upsert_no_row env ft _ _ p ?_ ?_ r hr
      · intro f hf hfp
        have hfd : f ∈ env.disk := List.mem_of_mem_filter hf
        have htrue := onDisk_of_mem env f hfd
        rw [hfp] at htrue
        rw [htrue] at hdisk
        cases hdisk
      · intro r2 hr2
        unfold phase2Rows at hr2
        have h2 := (List.mem_filter.mp hr2).2
        rintro ⟨ha, hb⟩
        rw [ha, hb] at h2
        have hc : (toDeletePaths env ft rows).contains p = true := by
          simpa using hp
        rw [hc] at h2
        simp at h2
    rcases Decidable.em (r.file_type = ft) with h1 | h1
    · rcases Decidable.em (r.file_path = p) with h2 | h2
      · exact absurd ⟨h1, h2⟩ hnone
      · simp [h2]
    · simp [h1]

/-- With the reset flag up, phase 1 selects every file found on disk. -/
theorem toIndexFiles_all_of_reset (env : Env) (ft : String)
    (rows : List DocumentStatus) (h : env.anyDbReset = true) :
    toIndexFiles env ft rows = env.disk := by
  unfold toIndexFiles
  rw [List.filter_eq_self]
  intro f _
  simp [selected, needsProcessing, h]

/-- C1: for a file present on disk and holding an indexed ledger row, with no
vector-store reset at startup, phase 1 selects the file for re-indexing
exactly when the MD5 digest of its current bytes differs from the stored
hash; neither the file mtime nor the stored last_modified value plays any
role in the decision. -/
theorem C1_reindex_iff_hash_differs (env : Env) (ft : String)
    (rows : List DocumentStatus) (f : DiskFile) (row : DocumentStatus)
    (m mr : Nat)
    (hreset : env.anyDbReset = false)
    (hmem : f ∈ env.disk)
    (hrow : lookupRow rows ft f.path = some row)
    (hst : row.status = "indexed") :
    (f ∈ toIndexFiles env ft rows ↔ f.hash ≠ row.file_hash)
    ∧ selected env ft rows { f with mtime := m } = selected env ft rows f
    ∧ needsProcessing env.anyDbReset f.hash (some { row with last_modified := mr })
        = needsProcessing env.anyDbReset f.hash (some row) := by
  refine ⟨?_, rfl, rfl⟩
  rw [toIndexFiles, List.mem_filter]
  simp [selected, hrow, needsProcessing, hreset, hst, hmem]

/-- Concrete disk file for the C1 witness. -/
def c1File : DiskFile :=
  { path := "/kb/a.txt", components := ["a.txt"], hash := 2, mtime := 9,
    outcome := .ok [] }

/-- Concrete indexed ledger row for the C1 witness, storing a different hash. -/
def c1Row : DocumentStatus :=
  { file_path := "/kb/a.txt", file_type := "kb", last_modified := 1,
    indexed_at := 1, status := "indexed", error_message := none, file_hash := 1 }

/-- Concrete environment for the C1 witness. -/
def c1Env : Env :=
  { disk := [c1File], anyDbReset := false, now := 0, embedFails := false,
    split := idSplit }

/-- Witness for C1 at a concrete input: the modified file is selected, and
the decision ignores both mtimes. -/
theorem C1_reindex_iff_hash_differs_witness :
    (c1File ∈ toIndexFiles c1Env "kb" [c1Row] ↔ c1File.hash ≠ c1Row.file_hash)
    ∧ selected c1Env "kb" [c1Row] { c1File with mtime := 1234 }
        = selected c1Env "kb" [c1Row] c1File
    ∧ needsProcessing c1Env.anyDbReset c1File.hash
        (some { c1Row with last_modified := 777 })
        = needsProcessing c1Env.anyDbReset c1File.hash (some c1Row) :=
  C1_reindex_iff_hash_differs c1Env "kb" [c1Row] c1File c1Row 1234 777
    rfl (by decide) (by decide) rfl

/-- C5: with the vector store freshly created or empty at startup (the reset
flag of __init__ is up), phase 1 selects every file found on disk,
regardless of any stored hash or status. -/
theorem C5_cold_start_selects_all (env : Env) (ft : String)
    (rows : List DocumentStatus) (h : env.anyDbReset = true) :
    toIndexFiles env ft rows = env.disk :=
  toIndexFiles_all_of_reset env ft rows h

/-- Concrete environment with the reset flag up for the C5 witness. -/
def c5Env : Env :=
  { disk := [c1File], anyDbReset := true, now := 0, embedFails := false,
    split := idSplit }

/-- Concrete ledger row matching the disk file exactly (same hash, indexed),
which would be skipped in a normal run. -/
def c5Row : DocumentStatus :=
  { file_path := "/kb/a.txt", file_type := "kb", last_modified := 9,
    indexed_at := 1, status := "indexed", error_message := none, file_hash := 2 }

/-- Witness for C5 at a concrete input: despite a matching indexed row, the
file is selected when the reset flag is up. -/
theorem C5_cold_start_selects_all_witness :
    toIndexFiles c5Env "kb" [c5Row] = c5Env.disk :=
  C5_cold_start_selects_all c5Env "kb" [c5Row] rfl

/-- C10: the reset flag is shared across the two categories: when either the
kb store or the codebase store was freshly created or empty, __init__ raises
the single _any_db_reset flag, clears the processing cache, and every file
of any category whose run carries that flag is selected for full
reprocessing. -/
theorem C10_shared_reset_flag (kbR codeR : Bool) (cache : Cache) (env : Env)
    (ft : String) (rows : List DocumentStatus)
    (h : kbR = true ∨ codeR = true)
    (henv : env.anyDbReset = ragInitAnyDbReset kbR codeR) :
    ragInitAnyDbReset kbR codeR = true
    ∧ ragInitCache kbR codeR cache = []
    ∧ toIndexFiles env ft rows = env.disk := by
  have hb : (kbR || codeR) = true := by
    rcases h with h | h <;> simp [h]
  refine ⟨by simp [ragInitAnyDbReset, hb], by simp [ragInitCache, hb], ?_⟩
  exact toIndexFiles_all_of_reset env ft rows
    (by rw [henv]; simp [ragInitAnyDbReset, hb])

/-- Environment for the C10 witness: the reset flag as computed by __init__
when only the codebase store is empty. -/
def c10Env : Env :=
  { disk := [c1File], anyDbReset := ragInitAnyDbReset false true, now := 0,
    embedFails := false, split := idSplit }

/-- Witness for C10 at a concrete input: the codebase store alone being
empty clears the cache and forces every kb file into the selection. -/
theorem C10_shared_reset_flag_witness :
    ragInitAnyDbReset false true = true
    ∧ ragInitCache false true [("/kb/a.txt", 2)] = []
    ∧ toIndexFiles c10Env "kb" [c5Row] = c10Env.disk :=
  C10_shared_reset_flag false true [("/kb/a.txt", 2)] c10Env "kb" [c5Row]
    (Or.inr rfl) rfl

/-- C4: commit discipline of update_vector_store.  When the kb stage raises,
the whole run ends with the pre-run ledger (the session rolls back) while
the vector-store and cache mutations already issued stay; when the code
stage raises, likewise; only when both stages return does the single commit
at the end of the run install the accumulated ledger rows. -/
theorem C4_single_commit_and_rollback (envKb envCode : Env) (s : SysState) :
    (stageOk (kbStep envKb s) = false →
        updateVectorStore envKb envCode s
          = { s with chromaKb := stageChromaD (kbStep envKb s),
                     cache := stageCacheD (kbStep envKb s) })
    ∧ (stageOk (kbStep envKb s) = true →
        stageOk (codeStep envKb envCode s) = false →
        updateVectorStore envKb envCode s
          = { s with chromaKb := stageChromaD (kbStep envKb s),
                     chromaCode := stageChromaD (codeStep envKb envCode s),
                     cache := stageCacheD (codeStep envKb envCode s) })
    ∧ (stageOk (kbStep envKb s) = true →
        stageOk (codeStep envKb envCode s) = true →
        updateVectorStore envKb envCode s
          = { rows := stageRows (codeStep envKb envCode s) s.rows,
              chromaKb := stageChromaD (kbStep envKb s),
              chromaCode := stageChromaD (codeStep envKb envCode s),
              cache := stageCacheD (codeStep envKb envCode s) }) := by
  cases hkb : processDocuments envKb "kb" s.rows s.chromaKb s.cache with
  | error e =>
      obtain ⟨ck, c1⟩ := e
      refine ⟨fun _ => ?_, fun h1 _ => ?_, fun h1 _ => ?_⟩
      · simp [updateVectorStore, kbStep, hkb, stageChromaD, stageCacheD]
      · simp [kbStep, hkb, stageOk] at h1
      · simp [kbStep, hkb, stageOk] at h1
  | ok r1 =>
      cases hcode : processDocuments envCode "code" r1.rows s.chromaCode r1.cache with
      | error e2 =>
          obtain ⟨cc, c2⟩ := e2
          refine ⟨fun h1 => ?_, fun _ _ => ?_, fun _ h2 => ?_⟩
          · simp [kbStep, hkb, stageOk] at h1
          · simp [updateVectorStore, kbStep, codeStep, hkb, hcode,
              stageRows, stageChromaD, stageCacheD]
          · simp [kbStep, codeStep, hkb, hcode, stageRows, stageCacheD, stageOk] at h2
      | ok r2 =>
          refine ⟨fun h1 => ?_, fun _ h2 => ?_, fun _ _ => ?_⟩
          · simp [kbStep, hkb, stageOk] at h1
          · simp [kbStep, codeStep, hkb, hcode, stageRows, stageCacheD, stageOk] at h2
          · simp [updateVectorStore, kbStep, codeStep, hkb, hcode,
              stageRows, stageChromaD, stageCacheD]

/-- Environment whose code stage raises: one new code file produces a chunk
and the bulk add fails (embedding backend down). -/
def c4EnvCodeFail : Env :=
  { disk := [{ path := "/code/p/m.py", components := ["p", "m.py"], hash := 3,
               mtime := 4, outcome := .ok [{ content := "def f: pass" }] }],
    anyDbReset := false, now := 5, embedFails := true, split := idSplit }

/-- Environment whose kb stage is a no-op (empty disk, nothing stored). -/
def c4EnvKbEmpty : Env :=
  { disk := [], anyDbReset := false, now := 5, embedFails := false,
    split := idSplit }

/-- Pre-run state for the C4 witness: one committed code ledger row whose
file is about to be re-indexed. -/
def c4State : SysState :=
  { rows := [{ file_path := "/code/p/m.py", file_type := "code",
               last_modified := 1, indexed_at := 1, status := "indexed",
               error_message := none, file_hash := 1 }],
    chromaKb := ⟨[]⟩, chromaCode := ⟨[{ content := "old", source := "/code/p/m.py" }]⟩,
    cache := [] }

/-- Witness for C4 at a concrete input: the code stage raises during the
bulk add, the run ends with the pre-run ledger intact, and the stale-chunk
delete already issued against the code vector store is not rolled back. -/
theorem C4_single_commit_and_rollback_witness :
    updateVectorStore c4EnvKbEmpty c4EnvCodeFail c4State
      = { c4State with
          chromaKb := stageChromaD (kbStep c4EnvKbEmpty c4State),
          chromaCode := stageChromaD (codeStep c4EnvKbEmpty c4EnvCodeFail c4State),
          cache := stageCacheD (codeStep c4EnvKbEmpty c4EnvCodeFail c4State) } :=
  (C4_single_commit_and_rollback c4EnvKbEmpty c4EnvCodeFail c4State).2.1
    (by decide) (by decide)

/-- Environment for the C6 witness: an empty disk scan. -/
def c6Env : Env :=
  { disk := [], anyDbReset := false, now := 3, embedFails := false,
    split := idSplit }

/-- Ledger row for the C6 witness, whose file has left the disk. -/
def c6Row : DocumentStatus :=
  { file_path := "/kb/gone.txt", file_type := "kb", last_modified := 1,
    indexed_at := 1, status := "indexed", error_message := none, file_hash := 7 }

/-- Pre-run vector store for the C6 witness, still holding a chunk of the
vanished file. -/
def c6Chroma : Chroma := ⟨[{ content := "x", source := "/kb/gone.txt" }]⟩

/-- Result of the C6 witness run. -/
def c6Result : StageResult := ⟨[], ⟨[]⟩, []⟩

/-- Witness for C6 at a concrete input: after the run, no chunk and no kb
ledger row with the vanished path remains. -/
theorem C6_deletion_completeness_witness :
    c6Result.chroma.chunks.all (fun ch => ch.source != "/kb/gone.txt") = true
    ∧ c6Result.rows.all
        (fun r => !(r.file_type == "kb" && r.file_path == "/kb/gone.txt")) = true :=
  C6_deletion_completeness c6Env "kb" [c6Row] c6Chroma [] c6Result
    "/kb/gone.txt" rfl (by decide)

/-- Disk file for the C2 counterexample: present in the ledger with an old
hash, so it is selected for re-indexing, but its processing raises. -/
def c2File : DiskFile :=
  { path := "/kb/docs/a.txt", components := ["docs", "a.txt"], hash := 2,
    mtime := 5, outcome := .otherExn "boom" }

/-- Environment for the C2 counterexample. -/
def c2Env : Env :=
  { disk := [c2File], anyDbReset := false, now := 7, embedFails := false,
    split := idSplit }

/-- Stored ledger row of the C2 counterexample file, holding the old hash. -/
def c2Row : DocumentStatus :=
  { file_path := "/kb/docs/a.txt", file_type := "kb", last_modified := 1,
    indexed_at := 1, status := "indexed", error_message := none, file_hash := 1 }

/-- A chunk produced from the earlier content version of the C2 file, sitting
in the vector store before the run. -/
def c2OldChunk : Doc := { content := "stale", source := "/kb/docs/a.txt" }

/-- Counterexample to C2: the file is selected for re-indexing, the run
completes, and the stale chunk of its earlier content version is still in
the vector store afterwards — the delete-by-source of lines 369-372 is only
issued for sources occurring among the chunks produced this run, and a file
whose loading fails contributes no chunk. -/
theorem C2_counterexample :
    c2File ∈ toIndexFiles c2Env "kb" [c2Row]
    ∧ stageOk (processDocuments c2Env "kb" [c2Row] ⟨[c2OldChunk]⟩ []) = true
    ∧ c2OldChunk ∈
        (stageChromaD (processDocuments c2Env "kb" [c2Row] ⟨[c2OldChunk]⟩ [])).chunks := by
  decide

/-- C2 amended: for every path selected for re-indexing that produced at
least one chunk this run, the delete-by-source precedes the bulk add, so any
chunk with that source surviving a completed run is one of the chunks
produced this run; paths whose loading or chunking failed (and thus produced
no chunk) receive no delete and keep their earlier chunks. -/
theorem C2_delete_before_upsert (env : Env) (ft : String)
    (rows : List DocumentStatus) (chroma : Chroma) (cache : Cache)
    (R : StageResult) (p : Path) (ch : Doc)
    (hR : processDocuments env ft rows chroma cache = .ok R)
    (hp : p ∈ (newChunks env ft rows).map (fun c => c.source))
    (hch : ch ∈ R.chroma.chunks) (hs : ch.source = p) :
    ch ∈ newChunks env ft rows := by
  obtain ⟨-, hspec⟩ := processDocuments_ok_spec env ft rows chroma cache R hR
  rcases hspec ch hch with h | ⟨-, -, hnot⟩
  · exact h
  · exact absurd hs (hnot p hp)

/-- Raw table unit of the C2 witness file. -/
def c2wDoc : Doc := { content := "table data", is_table_chunk := true }

/-- New file of the C2 witness run. -/
def c2wFile : DiskFile :=
  { path := "/kb/t.xlsx", components := ["t.xlsx"], hash := 4, mtime := 2,
    outcome := .ok [c2wDoc] }

/-- Environment of the C2 witness run. -/
def c2wEnv : Env :=
  { disk := [c2wFile], anyDbReset := false, now := 1, embedFails := false,
    split := idSplit }

/-- The chunk the C2 witness run produces. -/
def c2wChunk : Doc := addHierarchicalMetadata c2wDoc "/kb/t.xlsx" ["t.xlsx"] "kb"

/-- Result of the C2 witness run: the stale chunk with the same source was
deleted before the new chunk was added. -/
def c2wResult : StageResult :=
  ⟨[mkRow c2wEnv "kb" c2wFile], ⟨[c2wChunk]⟩, [("/kb/t.xlsx", 4)]⟩

/-- Witness for the amended C2 at a concrete input: the surviving chunk with
the re-indexed source is the freshly produced one. -/
theorem C2_delete_before_upsert_witness :
    c2wChunk ∈ newChunks c2wEnv "kb" [] :=
  C2_delete_before_upsert c2wEnv "kb" [] ⟨[{ content := "stale", source := "/kb/t.xlsx" }]⟩
    [] c2wResult "/kb/t.xlsx" c2wChunk rfl (by decide) (by decide) rfl

/-- Finding under a predicate is unaffected by a further filter conjunct the
predicate implies. -/
theorem find?_filter_and_eq {α : Type} (pred q w : α → Bool) (l : List α)
    (h : ∀ x, pred x = true → w x = true) :
    (l.filter (fun a => q a && w a)).find? pred = (l.filter q).find? pred := by
  induction l with
  | nil => rfl
  | cons a t ih =>
      by_cases hq2 : q a = true
      · by_cases hw : w a = true
        · rw [List.filter_cons, List.filter_cons, if_pos (by simp [hq2, hw]),
            if_pos hq2]
          cases hp : pred a
          · rw [List.find?_cons_of_neg _ (by simp [hp]),
              List.find?_cons_of_neg _ (by simp [hp]), ih]
          · rw [List.find?_cons_of_pos _ hp, List.find?_cons_of_pos _ hp]
        · have hp : pred a = false := by
            cases hpa : pred a
            · rfl
            · exact absurd (h a hpa) hw
          rw [List.filter_cons, List.filter_cons, if_neg (by simp [hw]),
            if_pos hq2, List.find?_cons_of_neg _ (by simp [hp]), ih]
      · rw [List.filter_cons, List.filter_cons, if_neg (by simp [hq2]),
          if_neg hq2, ih]

/-- Writing the phase 3 row of a file makes it the row the next lookup of
that path finds. -/
theorem lookupRow_upsert_self (env : Env) (ft : String)
    (rs : List DocumentStatus) (f : DiskFile) :
    lookupRow (upsertRow env ft rs f) ft f.path = some (mkRow env ft f) := by
  unfold lookupRow upsertRow
  rw [List.filter_append, List.reverse_append]
  have hq : ((mkRow env ft f).file_type == ft) = true := by simp [mkRow]
  rw [List.filter_cons, if_pos hq]
  simp only [List.filter_nil, List.reverse_cons, List.reverse_nil,
    List.nil_append, List.cons_append]
  exact List.find?_cons_of_pos _ (by simp [mkRow])

/-- Writing the phase 3 row of one file leaves the lookup of any other path
unchanged. -/
theorem lookupRow_upsert_other (env : Env) (ft : String)
    (rs : List DocumentStatus) (g : DiskFile) (p : Path) (h : g.path ≠ p) :
    lookupRow (upsertRow env ft rs g) ft p = lookupRow rs ft p := by
  unfold lookupRow upsertRow
  rw [List.filter_append, List.reverse_append]
  have hq : ((mkRow env ft g).file_type == ft) = true := by simp [mkRow]
  rw [List.filter_cons, if_pos hq]
  simp only [List.filter_nil, List.reverse_cons, List.reverse_nil,
    List.nil_append, List.cons_append]
  rw [List.find?_cons_of_neg _ (by simp [mkRow]; exact h)]
  rw [List.filter_filter, ← List.filter_reverse, ← List.filter_reverse]
  exact find?_filter_and_eq _ _ _ _ (by
    intro x hx
    rw [beq_iff_eq] at hx
    have hne : x.file_path ≠ g.path := by
      rw [hx]
      exact fun e => h e.symm
    simp [hne])

/-- Folding row writes of files none of which has a given path leaves the
lookup of that path unchanged. -/
theorem lookupRow_foldl_untouched (env : Env) (ft : String)
    (t : List DiskFile) (rs : List DocumentStatus) (p : Path)
    (h : ∀ g ∈ t, g.path ≠ p) :
    lookupRow (t.foldl (upsertRow env ft) rs) ft p = lookupRow rs ft p := by
  induction t generalizing rs with
  | nil => rfl
  | cons g u ih =>
      rw [List.foldl_cons, ih _ (fun x hx => h x (List.mem_cons_of_mem g hx)),
        lookupRow_upsert_other env ft rs g p (h g (List.mem_cons_self g u))]

/-- After folding the phase 3 row writes of a duplicate-free file list, the
lookup of each written path finds exactly the row of that file: the row each
file receives depends only on that file, not on what happened to the other
files of the run. -/
theorem lookup_foldl_upsert (env : Env) (ft : String) (l : List DiskFile)
    (rs : List DocumentStatus) (f : DiskFile)
    (hnd : (l.map (fun g => g.path)).Nodup) (hf : f ∈ l) :
    lookupRow (l.foldl (upsertRow env ft) rs) ft f.path
      = some (mkRow env ft f) := by
  induction l generalizing rs with
  | nil => cases hf
  | cons g t ih =>
      rw [List.foldl_cons]
      rw [List.map_cons, List.nodup_cons] at hnd
      rcases List.mem_cons.mp hf with rfl | hf2
      · have hnp : ∀ x ∈ t, x.path ≠ f.path := by
          intro x hx hcontra
          exact hnd.1 (hcontra ▸ List.mem_map_of_mem (fun g => g.path) hx)
        rw [lookupRow_foldl_untouched env ft t _ _ hnp, lookupRow_upsert_self]
      · exact ih _ hnd.2 hf2

/-- File of the C3 counterexample: its loader raises, _load_document catches
the exception itself and returns an empty list. -/
def c3File : DiskFile :=
  { path := "/kb/bad.pdf", components := ["bad.pdf"], hash := 11, mtime := 3,
    outcome := .loaderError }

/-- Environment of the C3 counterexample. -/
def c3Env : Env :=
  { disk := [c3File], anyDbReset := false, now := 9, embedFails := false,
    split := idSplit }

/-- Counterexample to C3: a kb file whose loading raises an exception ends
the run with a ledger row of status indexed (and no chunks), not status
error or skipped — _load_document swallows the exception and returns an
empty list, so the success branch of phase 3 runs. -/
theorem C3_counterexample :
    stageOk (processDocuments c3Env "kb" [] ⟨[]⟩ []) = true
    ∧ stageRowsD (processDocuments c3Env "kb" [] ⟨[]⟩ [])
        = [{ file_path := "/kb/bad.pdf", file_type := "kb", last_modified := 3,
             indexed_at := 9, status := "indexed", error_message := none,
             file_hash := 11 }] := by
  exact ⟨rfl, rfl⟩

/-- C3 amended: per-file failure isolation holds — after a completed run,
every selected file of a duplicate-free disk scan has exactly the ledger row
computed from that file alone, whatever happened to the other files; the
status written is indexed for a successful load, skipped for an exception
matching the binary/undecodable message patterns, error for any other
exception raised in the per-file block — but an exception raised inside the
kb document loader is caught there and yields status indexed with zero
chunks, not error or skipped. -/
theorem C3_per_file_status (env : Env) (ft : String)
    (rows : List DocumentStatus) (chroma : Chroma) (cache : Cache)
    (R : StageResult) (f : DiskFile) (m : String)
    (hR : processDocuments env ft rows chroma cache = .ok R)
    (hnd : (env.disk.map (fun g => g.path)).Nodup)
    (hf : f ∈ toIndexFiles env ft rows) :
    lookupRow R.rows ft f.path = some (mkRow env ft f)
    ∧ outcomeStatus "code" .decodeExn
        = ("skipped", some "File is binary or malformed, skipped for text processing.")
    ∧ outcomeStatus "code" (.otherExn m) = ("error", some m)
    ∧ outcomeStatus "kb" .loaderError = ("indexed", none) := by
  refine ⟨?_, rfl, rfl, rfl⟩
  obtain ⟨hrows, -⟩ := processDocuments_ok_spec env ft rows chroma cache R hR
  rw [hrows]
  have hsub : List.Sublist ((toIndexFiles env ft rows).map (fun g => g.path))
      (env.disk.map (fun g => g.path)) :=
    (List.filter_sublist env.disk).map (fun g => g.path)
  exact lookup_foldl_upsert env ft _ _ f (hnd.sublist hsub) hf

/-- Raw unit of the healthy file in the C3 witness run. -/
def c3wDoc : Doc := { content := "hello", is_table_chunk := true }

/-- Healthy file of the C3 witness run. -/
def c3wGood : DiskFile :=
  { path := "/kb/good.txt", components := ["good.txt"], hash := 1, mtime := 1,
    outcome := .ok [c3wDoc] }

/-- Failing file of the C3 witness run. -/
def c3wBad : DiskFile :=
  { path := "/kb/bad.txt", components := ["bad.txt"], hash := 2, mtime := 1,
    outcome := .otherExn "parse failure" }

/-- Environment of the C3 witness run: the failing file is processed before
the healthy one. -/
def c3wEnv : Env :=
  { disk := [c3wBad, c3wGood], anyDbReset := false, now := 4,
    embedFails := false, split := idSplit }

/-- Chunk the healthy C3 witness file produces. -/
def c3wChunk : Doc :=
  addHierarchicalMetadata c3wDoc "/kb/good.txt" ["good.txt"] "kb"

/-- Result of the C3 witness run. -/
def c3wResult : StageResult :=
  ⟨[mkRow c3wEnv "kb" c3wBad, mkRow c3wEnv "kb" c3wGood], ⟨[c3wChunk]⟩,
    [("/kb/bad.txt", 2), ("/kb/good.txt", 1)]⟩

/-- Witness for the amended C3 at a concrete input: the healthy file gets
its indexed row even though the file processed before it failed. -/
theorem C3_per_file_status_witness :
    lookupRow c3wResult.rows "kb" c3wGood.path = some (mkRow c3wEnv "kb" c3wGood)
    ∧ outcomeStatus "code" .decodeExn
        = ("skipped", some "File is binary or malformed, skipped for text processing.")
    ∧ outcomeStatus "code" (.otherExn "parse failure") = ("error", some "parse failure")
    ∧ outcomeStatus "kb" .loaderError = ("indexed", none) :=
  C3_per_file_status c3wEnv "kb" [] ⟨[]⟩ [] c3wResult c3wGood "parse failure"
    rfl (by decide) (by decide)

/-- Code file of the C7 counterexample: its content is binary, so every run
that processes it raises a decode exception and records it skipped. -/
def c7File : DiskFile :=
  { path := "/code/bin.py", components := ["bin.py"], hash := 5, mtime := 2,
    outcome := .decodeExn }

/-- Kb environment of both C7 counterexample runs: an empty kb tree. -/
def c7EnvKb1 : Env :=
  { disk := [], anyDbReset := false, now := 1, embedFails := false,
    split := idSplit }

/-- Code environment of the first C7 counterexample run. -/
def c7EnvCode1 : Env :=
  { disk := [c7File], anyDbReset := false, now := 1, embedFails := false,
    split := idSplit }

/-- Kb environment of the second run: identical disk state, later clock. -/
def c7EnvKb2 : Env :=
  { disk := [], anyDbReset := false, now := 2, embedFails := false,
    split := idSplit }

/-- Code environment of the second run: identical disk state, later clock. -/
def c7EnvCode2 : Env :=
  { disk := [c7File], anyDbReset := false, now := 2, embedFails := false,
    split := idSplit }

/-- Initial state of the C7 counterexample. -/
def c7s0 : SysState := ⟨[], ⟨[]⟩, ⟨[]⟩, []⟩

/-- State after the first C7 counterexample run. -/
def c7s1 : SysState := updateVectorStore c7EnvKb1 c7EnvCode1 c7s0

/-- State after the second C7 counterexample run. -/
def c7s2 : SysState := updateVectorStore c7EnvKb2 c7EnvCode2 c7s1

/-- Counterexample to C7: with no disk change between the runs, the second
run still upserts zero chunks but does not leave every ledger row
unmodified — the skipped row fails the status check of line 251, is
re-attempted, and is rewritten with a fresh indexed_at timestamp. -/
theorem C7_counterexample :
    newChunks c7EnvCode2 "code" c7s1.rows = []
    ∧ c7s2.rows ≠ c7s1.rows := by
  exact ⟨rfl, by decide⟩

/-- Disk-ledger agreement for one category: every scanned file has a ledger
row of that category whose stored hash equals the current digest and whose
status is indexed. -/
def diskMatchesLedger (env : Env) (ft : String)
    (rows : List DocumentStatus) : Bool :=
  env.disk.all (fun f =>
    match lookupRow rows ft f.path with
    | some r => r.file_hash == f.hash && r.status == "indexed"
    | none => false)

/-- All ledger rows of one category still name files present on disk. -/
def ledgerOnDisk (env : Env) (ft : String)
    (rows : List DocumentStatus) : Bool :=
  (rows.filter (fun r => r.file_type == ft)).all (fun r => onDisk env r.file_path)

/-- When every scanned file has a matching indexed row and no reset is
pending, phase 1 selects nothing. -/
theorem toIndexFiles_nil_of_match (env : Env) (ft : String)
    (rows : List DocumentStatus) (hr : env.anyDbReset = false)
    (hm : diskMatchesLedger env ft rows = true) :
    toIndexFiles env ft rows = [] := by
  unfold toIndexFiles
  rw [List.filter_eq_nil_iff]
  intro f hf
  unfold diskMatchesLedger at hm
  rw [List.all_eq_true] at hm
  have hfm := hm f hf
  cases hlook : lookupRow rows ft f.path with
  | none => rw [hlook] at hfm; simp at hfm
  | some r =>
      rw [hlook] at hfm
      simp only [Bool.and_eq_true, beq_iff_eq] at hfm
      simp [selected, needsProcessing, hr, hlook, hfm.1, hfm.2]

/-- When every ledger row of the category still names a file on disk,
phase 2 deletes nothing. -/
theorem toDeletePaths_nil_of_onDisk (env : Env) (ft : String)
    (rows : List DocumentStatus)
    (hd : ledgerOnDisk env ft rows = true) :
    toDeletePaths env ft rows = [] := by
  unfold toDeletePaths
  rw [List.filter_eq_nil_iff]
  intro p hp
  obtain ⟨r, hr, rfl⟩ := List.mem_map.mp hp
  unfold ledgerOnDisk at hd
  rw [List.all_eq_true] at hd
  simp [hd r hr]

/-- A stage with nothing selected and nothing to delete returns its inputs
untouched. -/
theorem processDocuments_idle (env : Env) (ft : String)
    (rows : List DocumentStatus) (chroma : Chroma) (cache : Cache)
    (hIdx : toIndexFiles env ft rows = [])
    (hDel : toDeletePaths env ft rows = []) :
    processDocuments env ft rows chroma cache = .ok ⟨rows, chroma, cache⟩ := by
  have hnew : newChunks env ft rows = [] := by
    rw [newChunks, hIdx]
    rfl
  have hrows : phase2Rows env ft rows = rows := by
    unfold phase2Rows
    rw [hDel, List.filter_eq_self]
    intro r _
    simp
  simp only [processDocuments, hIdx, hDel, hnew, hrows, List.foldl_nil]
  simp

/-- C7 amended: a second run with no disk changes right after a completed
run upserts zero chunks and leaves the whole state (ledger included)
untouched, provided every ledger row left by the first run has status
indexed; rows with status error or skipped fail the status check of
line 251, are re-attempted on every run, and are rewritten with a fresh
timestamp even when nothing on disk changed. -/
theorem C7_idempotent_when_all_indexed (envKb envCode : Env) (s : SysState)
    (hkbReset : envKb.anyDbReset = false)
    (hcodeReset : envCode.anyDbReset = false)
    (hkbMatch : diskMatchesLedger envKb "kb" s.rows = true)
    (hkbDel : ledgerOnDisk envKb "kb" s.rows = true)
    (hcodeMatch : diskMatchesLedger envCode "code" s.rows = true)
    (hcodeDel : ledgerOnDisk envCode "code" s.rows = true) :
    updateVectorStore envKb envCode s = s
    ∧ newChunks envKb "kb" s.rows = []
    ∧ newChunks envCode "code" s.rows = [] := by
  have hIdxKb := toIndexFiles_nil_of_match envKb "kb" s.rows hkbReset hkbMatch
  have hDelKb := toDeletePaths_nil_of_onDisk envKb "kb" s.rows hkbDel
  have hIdxCode := toIndexFiles_nil_of_match envCode "code" s.rows hcodeReset hcodeMatch
  have hDelCode := toDeletePaths_nil_of_onDisk envCode "code" s.rows hcodeDel
  refine ⟨?_, by rw [newChunks, hIdxKb]; rfl, by rw [newChunks, hIdxCode]; rfl⟩
  rw [updateVectorStore,
    processDocuments_idle envKb "kb" s.rows s.chromaKb s.cache hIdxKb hDelKb]
  simp only
  rw [processDocuments_idle envCode "code" s.rows s.chromaCode s.cache hIdxCode hDelCode]

/-- File of the C7 witness run, unchanged since its last indexing. -/
def c7wFile : DiskFile :=
  { path := "/kb/ok.txt", components := ["ok.txt"], hash := 3, mtime := 1,
    outcome := .ok [] }

/-- Kb environment of the C7 witness run. -/
def c7wEnvKb : Env :=
  { disk := [c7wFile], anyDbReset := false, now := 8, embedFails := false,
    split := idSplit }

/-- Code environment of the C7 witness run: an empty code tree. -/
def c7wEnvCode : Env :=
  { disk := [], anyDbReset := false, now := 8, embedFails := false,
    split := idSplit }

/-- State after a completed first run in the C7 witness: the single file is
indexed with its current hash and its chunk sits in the kb store. -/
def c7wState : SysState :=
  ⟨[{ file_path := "/kb/ok.txt", file_type := "kb", last_modified := 1,
      indexed_at := 1, status := "indexed", error_message := none,
      file_hash := 3 }],
    ⟨[{ content := "c", source := "/kb/ok.txt" }]⟩, ⟨[]⟩, [("/kb/ok.txt", 3)]⟩

/-- Witness for the amended C7 at a concrete input: the second run is a
strict no-op. -/
theorem C7_idempotent_when_all_indexed_witness :
    updateVectorStore c7wEnvKb c7wEnvCode c7wState = c7wState
    ∧ newChunks c7wEnvKb "kb" c7wState.rows = []
    ∧ newChunks c7wEnvCode "code" c7wState.rows = [] :=
  C7_idempotent_when_all_indexed c7wEnvKb c7wEnvCode c7wState
    rfl rfl (by decide) (by decide) (by decide) (by decide)

/-- The tab-delimited sheet body of the C8 counterexample: fifty data rows. -/
def c8DataRows : String := String.join (List.replicate 50 "aa\tbb\tcc\n")

/-- Tabular unit of the C8 counterexample: a sheet with a three-column
header row and fifty data rows, far beyond the claimed 250-character group
size. -/
def c8Table : Doc :=
  { content := "Feuille: Sheet1\nh1\th2\th3\n" ++ c8DataRows,
    source := "/kb/t.xlsx", file_type := "kb", is_table_chunk := true,
    sheet_name := some "Sheet1" }

set_option maxRecDepth 8192 in
/-- Counterexample to C8: the chunker never separates the header or splits
the data rows of a tabular unit — lines 294-295 append the whole sheet as a
single unmodified chunk, whatever splitter is configured, even though its
content is far longer than 250 characters. -/
theorem C8_counterexample :
    c8Table.is_table_chunk = true
    ∧ 250 < c8Table.content.length
    ∧ chunkKbDocs idSplit [c8Table] = [c8Table] := by
  refine ⟨rfl, by decide, rfl⟩

/-- C8 amended: a tabular unit is not split at all: each sheet passes
through the kb chunker as exactly one chunk with its content unchanged
(so, trivially, every chunk of the table starts with the header text, there
being exactly one chunk holding the whole sheet). -/
theorem C8_tables_pass_through_unsplit (split : Doc → List Doc) (d : Doc)
    (h : d.is_table_chunk = true) :
    chunkKbDocs split [d] = [d] := by
  simp [chunkKbDocs, h]

/-- Small tabular unit for the C8 witness. -/
def c8wTable : Doc :=
  { content := "Feuille: S2\nk1\tk2\nv1\tv2", is_table_chunk := true }

/-- Witness for the amended C8 at a concrete input, under a splitter that
would discard anything handed to it: the table is passed through whole. -/
theorem C8_tables_pass_through_unsplit_witness :
    chunkKbDocs (fun _ => []) [c8wTable] = [c8wTable] :=
  C8_tables_pass_through_unsplit (fun _ => []) c8wTable rfl

/-- Bare chunk for the C9 theorems. -/
def c9Doc : Doc := { content := "x = 1" }

/-- Counterexample to C9: a code file sitting directly at the code root (its
relative path has the single component main.py) gets its own file name as
project_name, not an explicit null — line 902 tests the first component of
the relative path, which for a root-level file is the file name itself. -/
theorem C9_counterexample :
    (addHierarchicalMetadata c9Doc "/code/main.py" ["main.py"] "code").project_name
      = some "main.py"
    ∧ (addHierarchicalMetadata c9Doc "/code/main.py" ["main.py"] "code").project_name
      ≠ none := by
  exact ⟨rfl, by decide⟩

/-- C9 amended: the project_name of a code chunk is the first component of
the file path relative to the code root: the top-level directory for a file
inside a subdirectory, but the file name itself for a file directly at the
root (never null there); it is null only when that first component is empty
or starts with a dot. -/
theorem C9_project_name_first_component (d : Doc) (p : Path)
    (dir fname : String) (rest : List String)
    (hdir1 : startsWithDot dir = false) (hdir2 : dir ≠ "")
    (hf1 : startsWithDot fname = false) (hf2 : fname ≠ "") :
    (addHierarchicalMetadata d p (dir :: (rest ++ [fname])) "code").project_name
      = some dir
    ∧ (addHierarchicalMetadata d p [fname] "code").project_name = some fname := by
  constructor
  · simp [addHierarchicalMetadata, hdir1, hdir2]
  · simp [addHierarchicalMetadata, hf1, hf2]

/-- Witness for the amended C9 at a concrete input: a file two levels deep
gets its project directory, a root-level file gets its own name. -/
theorem C9_project_name_first_component_witness :
    (addHierarchicalMetadata c9Doc "/code/proj/sub/m.py"
        ("proj" :: (["sub"] ++ ["m.py"])) "code").project_name = some "proj"
    ∧ (addHierarchicalMetadata c9Doc "/code/proj/sub/m.py"
        ["m.py"] "code").project_name = some "m.py" :=
  C9_project_name_first_component c9Doc "/code/proj/sub/m.py" "proj" "m.py"
    ["sub"] (by decide) (by decide) (by decide) (by decide)

end RagAMuffin
